import Mathlib

/-!
Verification of the consumer-side flow-control and acknowledgment subsystem of
a pub/sub messaging client: the memory limit controller
(pulsar/internal/memory_limit_controller.go) and the ack grouping tracker.
Go int64 arithmetic is modelled by integers reduced into the signed 64-bit
range by wrap64; atomic read-modify-write sequences are rendered sequentially
(the CAS loop of TryReserveMemory succeeds on its first iteration when no
other thread interleaves, which is the sequential semantics claimed).
-/

set_option linter.unusedVariables false

namespace PulsarClient

/-- Signed 64-bit wrap-around: the value an int64 expression evaluates to in Go. -/
def wrap64 (x : Int) : Int :=
  (x + 9223372036854775808) % 18446744073709551616 - 9223372036854775808

/-- The set of values an int64 variable can hold. -/
def int64InRange (x : Int) : Prop :=
  -9223372036854775808 ≤ x ∧ x < 9223372036854775808

lemma wrap64_eq_self (x : Int) (h : int64InRange x) : wrap64 x = x := by
  rcases h with ⟨h1, h2⟩
  unfold wrap64
  omega

lemma wrap64_add_right (a b : Int) : wrap64 (a + wrap64 b) = wrap64 (a + b) := by
  unfold wrap64
  omega

lemma wrap64_add_left (a b : Int) : wrap64 (wrap64 a + b) = wrap64 (a + b) := by
  unfold wrap64
  omega

lemma wrap64_neg_cancel (a b : Int) : wrap64 (a + wrap64 (-b) + b) = wrap64 a := by
  unfold wrap64
  omega

/-- State of the Go struct memoryLimitController: the immutable limit and the
atomic counter currentUsage.  The condition variable chCond (declared outside
this file in the repository) carries no data; the broadcast it receives is
reported as the Boolean output of ReleaseMemory. -/
structure memoryLimitController where
  limit : Int
  currentUsage : Int
  deriving DecidableEq, Repr

def NewMemoryLimitController (limit : Int) : memoryLimitController :=
  { limit := limit, currentUsage := 0 }

def IsMemoryLimited (m : memoryLimitController) : Bool :=
  decide (0 < m.limit)

def CurrentUsage (m : memoryLimitController) : Int :=
  m.currentUsage

/-- TryReserveMemory: load currentUsage, compute the candidate new usage, fail
when the limit is enforced and the loaded usage already exceeds it, otherwise
install the new usage by compare-and-swap.  Sequentially the CAS cannot lose a
race, so one loop iteration decides the call. -/
def TryReserveMemory (m : memoryLimitController) (size : Int) : Bool × memoryLimitController :=
  let current := m.currentUsage
  let newUsage := wrap64 (current + size)
  if IsMemoryLimited m && decide (m.limit < current) then
    (false, m)
  else
    (true, { m with currentUsage := newUsage })

def ForceReserveMemory (m : memoryLimitController) (size : Int) : memoryLimitController :=
  { m with currentUsage := wrap64 (m.currentUsage + size) }

/-- ReleaseMemory: atomically add the int64 negation of size, then broadcast
exactly when newUsage+size > limit and newUsage <= limit.  The Boolean output
records whether the broadcast happened. -/
def ReleaseMemory (m : memoryLimitController) (size : Int) : memoryLimitController × Bool :=
  let newUsage := wrap64 (m.currentUsage + wrap64 (-size))
  ({ m with currentUsage := newUsage },
   decide (m.limit < wrap64 (newUsage + size)) && decide (newUsage ≤ m.limit))

/-- A well-formed controller state holds int64 values in both fields. -/
def mlcWF (m : memoryLimitController) : Prop :=
  int64InRange m.limit ∧ int64InRange m.currentUsage

/-- One sequential call against the controller, for trace reasoning. -/
inductive MemOp where
  | tryReserve (size : Int)
  | release (size : Int)

def memStep (m : memoryLimitController) : MemOp → memoryLimitController
  | .tryReserve size => (TryReserveMemory m size).2
  | .release size => (ReleaseMemory m size).1

def runMem (m : memoryLimitController) (ops : List MemOp) : memoryLimitController :=
  ops.foldl memStep m

lemma memStep_limit (m : memoryLimitController) (op : MemOp) :
    (memStep m op).limit = m.limit := by
  cases op with
  | tryReserve size =>
    simp only [memStep, TryReserveMemory]
    split <;> rfl
  | release size => rfl

lemma runMem_limit (ops : List MemOp) : ∀ m, (runMem m ops).limit = m.limit := by
  induction ops with
  | nil => intro m; rfl
  | cons op rest ih =>
    intro m
    show (runMem (memStep m op) rest).limit = m.limit
    rw [ih (memStep m op), memStep_limit]

/-- C1: TryReserveMemory(size) returns false and leaves the state unchanged
exactly when the limit is enforced (limit > 0) and the loaded usage already
exceeds the limit (current > limit); otherwise it returns true and advances
currentUsage by size in int64 arithmetic. -/
theorem C1_tryReserveMemory (m : memoryLimitController) (size : Int)
    (hm : mlcWF m) (hs : int64InRange size) :
    ((TryReserveMemory m size).1 = false ↔ (0 < m.limit ∧ m.limit < m.currentUsage)) ∧
    ((TryReserveMemory m size).1 = false → (TryReserveMemory m size).2 = m) ∧
    ((TryReserveMemory m size).1 = true →
      (TryReserveMemory m size).2 =
        { m with currentUsage := wrap64 (m.currentUsage + size) }) := by
  unfold TryReserveMemory IsMemoryLimited
  by_cases h1 : 0 < m.limit <;> by_cases h2 : m.limit < m.currentUsage <;>
    simp [h1, h2]

theorem C1_tryReserveMemory_witness :
    (mlcWF { limit := 10, currentUsage := 3 } ∧ int64InRange 4) ∧
    (((TryReserveMemory { limit := 10, currentUsage := 3 } 4).1 = false ↔
        (0 < (10 : Int) ∧ (10 : Int) < 3)) ∧
      ((TryReserveMemory { limit := 10, currentUsage := 3 } 4).1 = false →
        (TryReserveMemory { limit := 10, currentUsage := 3 } 4).2 =
          { limit := 10, currentUsage := 3 }) ∧
      ((TryReserveMemory { limit := 10, currentUsage := 3 } 4).1 = true →
        (TryReserveMemory { limit := 10, currentUsage := 3 } 4).2 =
          { limit := 10, currentUsage := wrap64 (3 + 4) })) :=
  ⟨⟨by norm_num [mlcWF, int64InRange], by norm_num [int64InRange]⟩,
   C1_tryReserveMemory { limit := 10, currentUsage := 3 } 4
     (by norm_num [mlcWF, int64InRange]) (by norm_num [int64InRange])⟩

/-- C2: along any sequential trace of TryReserveMemory and ReleaseMemory calls
against a controller with a fixed positive limit, a TryReserveMemory that
succeeds must have started from usage at most the limit (so one success is the
most that can push usage past the limit), and any TryReserveMemory attempted
while usage already exceeds the limit returns false. -/
theorem C2_overshoot_grace (limit : Int) (hpos : 0 < limit) (ops : List MemOp) (size : Int) :
    ((TryReserveMemory (runMem (NewMemoryLimitController limit) ops) size).1 = true →
      CurrentUsage (runMem (NewMemoryLimitController limit) ops) ≤ limit) ∧
    (limit < CurrentUsage (runMem (NewMemoryLimitController limit) ops) →
      (TryReserveMemory (runMem (NewMemoryLimitController limit) ops) size).1 = false) := by
  have hl : (runMem (NewMemoryLimitController limit) ops).limit = limit :=
    runMem_limit ops _
  unfold TryReserveMemory IsMemoryLimited CurrentUsage
  rw [hl]
  by_cases h2 : limit < (runMem (NewMemoryLimitController limit) ops).currentUsage <;>
    simp [hpos, h2] <;> omega

theorem C2_overshoot_grace_witness :
    (0 : Int) < 7 ∧
    (((TryReserveMemory (runMem (NewMemoryLimitController 7) [MemOp.tryReserve 5]) 5).1 = true →
        CurrentUsage (runMem (NewMemoryLimitController 7) [MemOp.tryReserve 5]) ≤ 7) ∧
      ((7 : Int) < CurrentUsage (runMem (NewMemoryLimitController 7) [MemOp.tryReserve 5]) →
        (TryReserveMemory (runMem (NewMemoryLimitController 7) [MemOp.tryReserve 5]) 5).1 = false)) :=
  ⟨by norm_num, C2_overshoot_grace 7 (by norm_num) [MemOp.tryReserve 5] 5⟩

/-- C8: ReleaseMemory(size) updates currentUsage to the int64 difference
currentUsage - size, and broadcasts (Boolean output true) exactly when the
old usage exceeded the limit and the new usage is at or below it. -/
theorem C8_releaseMemory_broadcast (m : memoryLimitController) (size : Int)
    (hm : mlcWF m) (hs : int64InRange size) :
    (ReleaseMemory m size).1.currentUsage = wrap64 (m.currentUsage - size) ∧
    ((ReleaseMemory m size).2 = true ↔
      (m.limit < m.currentUsage ∧ wrap64 (m.currentUsage - size) ≤ m.limit)) := by
  have h1 : wrap64 (m.currentUsage + wrap64 (-size)) = wrap64 (m.currentUsage - size) := by
    rw [wrap64_add_right]
    ring_nf
  have h2 : wrap64 (wrap64 (m.currentUsage - size) + size) = m.currentUsage := by
    rw [wrap64_add_left, show m.currentUsage - size + size = m.currentUsage by ring,
      wrap64_eq_self _ hm.2]
  constructor
  · exact h1
  · show (decide (m.limit < wrap64 (wrap64 (m.currentUsage + wrap64 (-size)) + size)) &&
        decide (wrap64 (m.currentUsage + wrap64 (-size)) ≤ m.limit)) = true ↔ _
    rw [h1, h2]
    simp [Bool.and_eq_true, decide_eq_true_eq, and_comm]

theorem C8_releaseMemory_broadcast_witness :
    (mlcWF { limit := 10, currentUsage := 12 } ∧ int64InRange 5) ∧
    ((ReleaseMemory { limit := 10, currentUsage := 12 } 5).1.currentUsage = wrap64 (12 - 5) ∧
      ((ReleaseMemory { limit := 10, currentUsage := 12 } 5).2 = true ↔
        ((10 : Int) < 12 ∧ wrap64 (12 - 5) ≤ 10))) :=
  ⟨⟨by norm_num [mlcWF, int64InRange], by norm_num [int64InRange]⟩,
   C8_releaseMemory_broadcast { limit := 10, currentUsage := 12 } 5
     (by norm_num [mlcWF, int64InRange]) (by norm_num [int64InRange])⟩

/-- C9: every int64 size, negative sizes included, is accepted by the total
functions TryReserveMemory, ForceReserveMemory and ReleaseMemory (the model of
the panic-free Go operations), and ReleaseMemory with a negative size is the
same state change as a forced reservation of the int64 negation of size: it
advances currentUsage by the absolute value of size in int64 arithmetic, which
is the exact mathematical increase whenever that sum stays in the int64
range. -/
theorem C9_releaseMemory_negative (m : memoryLimitController) (size : Int)
    (hm : mlcWF m) (hs : int64InRange size) (hneg : size < 0) :
    (ReleaseMemory m size).1.currentUsage = wrap64 (m.currentUsage + |size|) ∧
    (ReleaseMemory m size).1 = ForceReserveMemory m (wrap64 (-size)) ∧
    (int64InRange (m.currentUsage + |size|) →
      (ReleaseMemory m size).1.currentUsage = m.currentUsage + |size|) := by
  have habs : |size| = -size := abs_of_neg hneg
  have h1 : (ReleaseMemory m size).1.currentUsage = wrap64 (m.currentUsage + |size|) := by
    show wrap64 (m.currentUsage + wrap64 (-size)) = _
    rw [wrap64_add_right, habs]
  refine ⟨h1, rfl, ?_⟩
  intro hr
  rw [h1, wrap64_eq_self _ hr]

theorem C9_releaseMemory_negative_witness :
    (mlcWF { limit := 10, currentUsage := 4 } ∧ int64InRange (-6) ∧ (-6 : Int) < 0) ∧
    ((ReleaseMemory { limit := 10, currentUsage := 4 } (-6)).1.currentUsage =
      wrap64 (4 + |(-6 : Int)|) ∧
    (ReleaseMemory { limit := 10, currentUsage := 4 } (-6)).1 =
      ForceReserveMemory { limit := 10, currentUsage := 4 } (wrap64 (-(-6))) ∧
    (int64InRange (4 + |(-6 : Int)|) →
      (ReleaseMemory { limit := 10, currentUsage := 4 } (-6)).1.currentUsage =
        4 + |(-6 : Int)|)) :=
  ⟨⟨by norm_num [mlcWF, int64InRange], by norm_num [int64InRange], by norm_num⟩,
   C9_releaseMemory_negative { limit := 10, currentUsage := 4 } (-6)
     (by norm_num [mlcWF, int64InRange]) (by norm_num [int64InRange]) (by norm_num)⟩

/-- Modelled from the spec: MessageID is an ordered identifier made of a
position (ledger and entry coordinates) and optional batch coordinates (batch
index and batch size).  The concrete type lives outside the source under
verification; this record follows the words of the data model section. -/
structure MessageID where
  ledgerID : Int
  entryID : Int
  batchIdx : Int
  batchSize : Int
  deriving DecidableEq, Repr, Inhabited

/-- Modelled from the spec: the logical earliest possible MessageID, the
initial cumulative watermark. -/
def EarliestMessageID : MessageID :=
  { ledgerID := -1, entryID := -1, batchIdx := -1, batchSize := 0 }

/-- Modelled from the spec: a MessageID with batch size at most 1 (or unset)
is non-batched. -/
def messageIDIsBatch (id : MessageID) : Bool :=
  decide (1 < id.batchSize)

/-- Modelled from the spec: MessageIDs compare by position first, batch index
second; negative means the first argument is smaller, positive larger, zero
equal. -/
def messageIDCompare (a b : MessageID) : Int :=
  if a.ledgerID < b.ledgerID then -1
  else if b.ledgerID < a.ledgerID then 1
  else if a.entryID < b.entryID then -1
  else if b.entryID < a.entryID then 1
  else if a.batchIdx < b.batchIdx then -1
  else if b.batchIdx < a.batchIdx then 1
  else 0

/-- Modelled from the spec: the pending-ack index is keyed by a hash of the
non-batch position (ledger id and entry id); the key is modelled as the
position pair itself. -/
def messageIDHash (id : MessageID) : Int × Int :=
  (id.ledgerID, id.entryID)

/-- Bit vector of the external bitset library: entry i is true when bit i is
set.  Clear of an out-of-range (or, after the Go uint conversion, negative)
index is a no-op, matching the library. -/
def bitClear (l : List Bool) (i : Int) : List Bool :=
  if 0 ≤ i then l.set i.toNat false else l

/-- Test of an out-of-range or negative index returns false, matching the
library. -/
def bitTest (l : List Bool) (i : Int) : Bool :=
  if 0 ≤ i then l.getD i.toNat false else false

/-- None reports that no bit is set. -/
def bitNone (l : List Bool) : Bool :=
  l.all (fun b => b = false)

/-- Pending-ack index: a map from position keys to either a nil marker
(non-batched entry) or a bitset; the outer Option is map membership, the
inner Option distinguishes the nil value from a bitset value. -/
def PendingAcks : Type :=
  Int × Int → Option (Option (List Bool))

/-- State of the Go struct cachedAcks.  The fixed-length slice singleAcks is a
function from slot number together with the explicit capacity maxSize
(len(singleAcks) in Go); ackedIndividual and ackedCumulative record, in order,
the arguments of every invocation of the injected callbacks, so the effect of
ackList (one ackIndividual per id) and ackCumulative is observable. -/
structure cachedAcks where
  maxSize : Nat
  singleAcks : Nat → MessageID
  index : Nat
  pendingAcks : PendingAcks
  lastCumulativeAck : MessageID
  cumulativeAckRequired : Bool
  ackedIndividual : List MessageID
  ackedCumulative : List MessageID

/-- The pending-ack index update performed by addAndCheckIfFull: an unseen
batched position gets a full bitset, an unseen non-batched position the nil
marker, and any non-nil set has the bit of the incoming batch index
cleared. -/
def addPending (p : PendingAcks) (id : MessageID) : PendingAcks :=
  let key := messageIDHash id
  let ackSet : Option (List Bool) :=
    match p key with
    | some s => s
    | none =>
      if messageIDIsBatch id then some (List.replicate id.batchSize.toNat true) else none
  let ackSet2 := ackSet.map (fun s => bitClear s id.batchIdx)
  fun k => if k = key then some ackSet2 else p k

/-- addAndCheckIfFull: write the id at the cursor, advance the cursor, update
the pending-ack index, and report whether the buffer is now full. -/
def addAndCheckIfFull (t : cachedAcks) (id : MessageID) : Bool × cachedAcks :=
  (decide (t.index + 1 = t.maxSize),
   { t with
      singleAcks := fun n => if n = t.index then id else t.singleAcks n,
      index := t.index + 1,
      pendingAcks := addPending t.pendingAcks id })

/-- tryUpdateLastCumulativeAck: advance the watermark only when the candidate
is strictly greater, and then mark a cumulative flush as required. -/
def tryUpdateLastCumulativeAck (t : cachedAcks) (id : MessageID) : cachedAcks :=
  if messageIDCompare t.lastCumulativeAck id < 0 then
    { t with lastCumulativeAck := id, cumulativeAckRequired := true }
  else t

/-- isDuplicate: dominated by the watermark; otherwise consult the pending-ack
index, where an absent key means not a duplicate, a nil marker or a
non-batched id means duplicate, and a bitset means duplicate exactly when the
bit of the batch index is already cleared. -/
def isDuplicate (t : cachedAcks) (id : MessageID) : Bool :=
  if 0 ≤ messageIDCompare t.lastCumulativeAck id then true
  else
    match t.pendingAcks (messageIDHash id) with
    | none => false
    | some none => true
    | some (some ackSet) =>
      if messageIDIsBatch id = false then true
      else !(bitTest ackSet id.batchIdx)

/-- Per-id pending-ack update of flushIndividualAcks: the dead conditional of
the source is kept (clear the bit, drop the entry when no bit remains), and
then the entry is deleted unconditionally, as the final delete of the loop
body does. -/
def stepFlush (p : PendingAcks) (id : MessageID) : PendingAcks :=
  let key := messageIDHash id
  match p key with
  | none => p
  | some ackSet =>
    let p2 : PendingAcks :=
      match ackSet with
      | none => fun k => if k = key then none else p k
      | some s =>
        let s2 := bitClear s id.batchIdx
        if bitNone s2 then (fun k => if k = key then none else p k)
        else (fun k => if k = key then some (some s2) else p k)
    fun k => if k = key then none else p2 k

/-- flushIndividualAcks: when the buffer is non-empty, hand the buffered
prefix to ackList (one ackIndividual call per id, in order), update the
pending-ack index for each flushed id, and reset the cursor. -/
def flushIndividualAcks (t : cachedAcks) : cachedAcks :=
  if 0 < t.index then
    let ids := (List.range t.index).map t.singleAcks
    { t with
       ackedIndividual := t.ackedIndividual ++ ids,
       pendingAcks := ids.foldl stepFlush t.pendingAcks,
       index := 0 }
  else t

/-- flushCumulativeAck: invoke ackCumulative on the watermark when an advance
is pending, then clear the flag. -/
def flushCumulativeAck (t : cachedAcks) : cachedAcks :=
  if t.cumulativeAckRequired then
    { t with
       ackedCumulative := t.ackedCumulative ++ [t.lastCumulativeAck],
       cumulativeAckRequired := false }
  else t

def flush (t : cachedAcks) : cachedAcks :=
  flushCumulativeAck (flushIndividualAcks t)

/-- clean: fresh buffer, empty pending-ack index, watermark reset to the
earliest MessageID, flag cleared. -/
def clean (t : cachedAcks) : cachedAcks :=
  { t with
     singleAcks := fun _ => default,
     index := 0,
     pendingAcks := fun _ => none,
     lastCumulativeAck := EarliestMessageID,
     cumulativeAckRequired := false }

/-- The grouped tracker state right after newAckGroupingTracker with
MaxSize = maxSize. -/
def initCachedAcks (maxSize : Nat) : cachedAcks :=
  { maxSize := maxSize,
    singleAcks := fun _ => default,
    index := 0,
    pendingAcks := fun _ => none,
    lastCumulativeAck := EarliestMessageID,
    cumulativeAckRequired := false,
    ackedIndividual := [],
    ackedCumulative := [] }

/-- Events consumed by the serialized tracker loop.  close performs the same
state change as a flush request before the loop exits, and isDuplicate is a
pure query, so neither needs an event of its own. -/
inductive TrackerEvent where
  | add (id : MessageID)
  | addCumulative (id : MessageID)
  | timerFire
  | flushReq
  | flushAndCleanReq
  deriving DecidableEq, Repr

/-- One iteration of the tracker loop; mt records whether options.MaxTime is
positive (the ticker resets carry no tracker state and are not modelled). -/
def trackerStep (mt : Bool) (t : cachedAcks) : TrackerEvent → cachedAcks
  | .add id =>
    let r := addAndCheckIfFull t id
    if r.1 then flushIndividualAcks r.2 else r.2
  | .addCumulative id =>
    let t2 := tryUpdateLastCumulativeAck t id
    if mt then t2 else flushCumulativeAck t2
  | .timerFire => flush t
  | .flushReq => flush t
  | .flushAndCleanReq => clean (flush t)

def runT (mt : Bool) (t : cachedAcks) (evs : List TrackerEvent) : cachedAcks :=
  evs.foldl (trackerStep mt) t

lemma messageIDCompare_nonneg_iff (a b : MessageID) :
    0 ≤ messageIDCompare a b ↔
      (b.ledgerID < a.ledgerID ∨
        (a.ledgerID = b.ledgerID ∧
          (b.entryID < a.entryID ∨
            (a.entryID = b.entryID ∧ b.batchIdx ≤ a.batchIdx)))) := by
  unfold messageIDCompare
  split_ifs <;> constructor <;> intro h <;> omega

lemma messageIDCompare_self (a : MessageID) : messageIDCompare a a = 0 := by
  unfold messageIDCompare
  split_ifs <;> omega

lemma messageIDCompare_ge_trans {a b c : MessageID}
    (h1 : 0 ≤ messageIDCompare a b) (h2 : 0 ≤ messageIDCompare b c) :
    0 ≤ messageIDCompare a c := by
  rw [messageIDCompare_nonneg_iff] at h1 h2 ⊢
  rcases h1 with h1 | ⟨e1, h1⟩ <;> rcases h2 with h2 | ⟨e2, h2⟩
  · left; omega
  · left; omega
  · left; omega
  · rcases h1 with h1 | ⟨f1, h1⟩ <;> rcases h2 with h2 | ⟨f2, h2⟩ <;>
      right <;> constructor <;> omega

lemma messageIDCompare_lt_flip {a b : MessageID}
    (h : messageIDCompare a b < 0) : 0 ≤ messageIDCompare b a := by
  unfold messageIDCompare at h ⊢
  split_ifs at h ⊢ <;> omega

lemma lastCum_addAndCheckIfFull (t : cachedAcks) (id : MessageID) :
    (addAndCheckIfFull t id).2.lastCumulativeAck = t.lastCumulativeAck := rfl

lemma lastCum_flushIndividualAcks (t : cachedAcks) :
    (flushIndividualAcks t).lastCumulativeAck = t.lastCumulativeAck := by
  unfold flushIndividualAcks
  split <;> rfl

lemma lastCum_flushCumulativeAck (t : cachedAcks) :
    (flushCumulativeAck t).lastCumulativeAck = t.lastCumulativeAck := by
  unfold flushCumulativeAck
  split <;> rfl

lemma lastCum_flush (t : cachedAcks) :
    (flush t).lastCumulativeAck = t.lastCumulativeAck := by
  unfold flush
  rw [lastCum_flushCumulativeAck, lastCum_flushIndividualAcks]

lemma trackerStep_lastCum_ge (mt : Bool) (t : cachedAcks) (ev : TrackerEvent)
    (h : ev ≠ TrackerEvent.flushAndCleanReq) :
    0 ≤ messageIDCompare (trackerStep mt t ev).lastCumulativeAck t.lastCumulativeAck := by
  cases ev with
  | add id =>
    show 0 ≤ messageIDCompare
      (if (addAndCheckIfFull t id).1 then flushIndividualAcks (addAndCheckIfFull t id).2
        else (addAndCheckIfFull t id).2).lastCumulativeAck t.lastCumulativeAck
    split
    · rw [lastCum_flushIndividualAcks, lastCum_addAndCheckIfFull, messageIDCompare_self]
    · rw [lastCum_addAndCheckIfFull, messageIDCompare_self]
  | addCumulative id =>
    show 0 ≤ messageIDCompare
      (if mt then tryUpdateLastCumulativeAck t id
        else flushCumulativeAck (tryUpdateLastCumulativeAck t id)).lastCumulativeAck
      t.lastCumulativeAck
    have key : 0 ≤ messageIDCompare
        (tryUpdateLastCumulativeAck t id).lastCumulativeAck t.lastCumulativeAck := by
      unfold tryUpdateLastCumulativeAck
      split
      · next hlt => exact messageIDCompare_lt_flip hlt
      · rw [messageIDCompare_self]
    split
    · exact key
    · rw [lastCum_flushCumulativeAck]; exact key
  | timerFire =>
    show 0 ≤ messageIDCompare (flush t).lastCumulativeAck t.lastCumulativeAck
    rw [lastCum_flush, messageIDCompare_self]
  | flushReq =>
    show 0 ≤ messageIDCompare (flush t).lastCumulativeAck t.lastCumulativeAck
    rw [lastCum_flush, messageIDCompare_self]
  | flushAndCleanReq => exact absurd rfl h

lemma runT_lastCum_mono (mt : Bool) (evs : List TrackerEvent)
    (hcl : ∀ e ∈ evs, e ≠ TrackerEvent.flushAndCleanReq) :
    ∀ (t : cachedAcks) (x : MessageID),
      0 ≤ messageIDCompare t.lastCumulativeAck x →
      0 ≤ messageIDCompare (runT mt t evs).lastCumulativeAck x := by
  induction evs with
  | nil => intro t x h; exact h
  | cons ev rest ih =>
    intro t x h
    show 0 ≤ messageIDCompare (runT mt (trackerStep mt t ev) rest).lastCumulativeAck x
    refine ih (fun e he => hcl e (List.mem_cons_of_mem _ he)) _ x ?_
    exact messageIDCompare_ge_trans
      (trackerStep_lastCum_ge mt t ev (hcl ev (List.mem_cons_self _ _))) h

lemma runT_lastCum_ge_of_mem (mt : Bool) (evs : List TrackerEvent)
    (hcl : ∀ e ∈ evs, e ≠ TrackerEvent.flushAndCleanReq) :
    ∀ (t : cachedAcks) (id' : MessageID), TrackerEvent.addCumulative id' ∈ evs →
      0 ≤ messageIDCompare (runT mt t evs).lastCumulativeAck id' := by
  induction evs with
  | nil => intro t id' h; exact absurd h (List.not_mem_nil _)
  | cons ev rest ih =>
    intro t id' hmem
    rcases List.mem_cons.1 hmem with heq | htail
    · subst heq
      show 0 ≤ messageIDCompare
        (runT mt (trackerStep mt t (.addCumulative id')) rest).lastCumulativeAck id'
      refine runT_lastCum_mono mt rest
        (fun e he => hcl e (List.mem_cons_of_mem _ he)) _ id' ?_
      show 0 ≤ messageIDCompare
        (if mt then tryUpdateLastCumulativeAck t id'
          else flushCumulativeAck (tryUpdateLastCumulativeAck t id')).lastCumulativeAck id'
      have key : 0 ≤ messageIDCompare
          (tryUpdateLastCumulativeAck t id').lastCumulativeAck id' := by
        unfold tryUpdateLastCumulativeAck
        split
        · rw [messageIDCompare_self]
        · next hnlt => omega
      split
      · exact key
      · rw [lastCum_flushCumulativeAck]; exact key
    · exact ih (fun e he => hcl e (List.mem_cons_of_mem _ he)) _ id' htail

lemma isDuplicate_of_lastCum_ge (t : cachedAcks) (id : MessageID)
    (h : 0 ≤ messageIDCompare t.lastCumulativeAck id) :
    isDuplicate t id = true := by
  unfold isDuplicate
  rw [if_pos h]

/-- C3: in any grouped-tracker event sequence that contains no flushAndClean,
the cumulative watermark stays at least every id submitted through
addCumulative, and isDuplicate answers true for every id at most such a
submitted id, flushed or not. -/
theorem C3_cumulative_dominates (mt : Bool) (N : Nat) (hN : 1 < N)
    (evs : List TrackerEvent) (hcl : TrackerEvent.flushAndCleanReq ∉ evs)
    (id id' : MessageID) (hmem : TrackerEvent.addCumulative id' ∈ evs)
    (hle : 0 ≤ messageIDCompare id' id) :
    0 ≤ messageIDCompare (runT mt (initCachedAcks N) evs).lastCumulativeAck id' ∧
    isDuplicate (runT mt (initCachedAcks N) evs) id = true := by
  have hcl' : ∀ e ∈ evs, e ≠ TrackerEvent.flushAndCleanReq := by
    intro e he heq
    exact hcl (heq ▸ he)
  have hwm := runT_lastCum_ge_of_mem mt evs hcl' (initCachedAcks N) id' hmem
  exact ⟨hwm, isDuplicate_of_lastCum_ge _ _ (messageIDCompare_ge_trans hwm hle)⟩

theorem C3_cumulative_dominates_witness :
    ((1 : Nat) < 5 ∧
      TrackerEvent.flushAndCleanReq ∉
        [TrackerEvent.addCumulative { ledgerID := 2, entryID := 7, batchIdx := -1, batchSize := 0 }] ∧
      TrackerEvent.addCumulative { ledgerID := 2, entryID := 7, batchIdx := -1, batchSize := 0 } ∈
        [TrackerEvent.addCumulative { ledgerID := 2, entryID := 7, batchIdx := -1, batchSize := 0 }] ∧
      0 ≤ messageIDCompare { ledgerID := 2, entryID := 7, batchIdx := -1, batchSize := 0 }
        { ledgerID := 2, entryID := 3, batchIdx := -1, batchSize := 0 }) ∧
    (0 ≤ messageIDCompare
        (runT true (initCachedAcks 5)
          [TrackerEvent.addCumulative { ledgerID := 2, entryID := 7, batchIdx := -1, batchSize := 0 }]).lastCumulativeAck
        { ledgerID := 2, entryID := 7, batchIdx := -1, batchSize := 0 } ∧
      isDuplicate
        (runT true (initCachedAcks 5)
          [TrackerEvent.addCumulative { ledgerID := 2, entryID := 7, batchIdx := -1, batchSize := 0 }])
        { ledgerID := 2, entryID := 3, batchIdx := -1, batchSize := 0 } = true) :=
  ⟨⟨by norm_num, by decide, by decide, by decide⟩,
   C3_cumulative_dominates true 5 (by norm_num)
     [TrackerEvent.addCumulative { ledgerID := 2, entryID := 7, batchIdx := -1, batchSize := 0 }]
     (by decide)
     { ledgerID := 2, entryID := 3, batchIdx := -1, batchSize := 0 }
     { ledgerID := 2, entryID := 7, batchIdx := -1, batchSize := 0 }
     (by decide) (by decide)⟩

lemma clean_lastCum (t : cachedAcks) : (clean t).lastCumulativeAck = EarliestMessageID := rfl

lemma initCachedAcks_lastCum (N : Nat) :
    (initCachedAcks N).lastCumulativeAck = EarliestMessageID := rfl

lemma clean_pendingAcks (t : cachedAcks) (k : Int × Int) : (clean t).pendingAcks k = none := rfl

lemma runT_append_clean (mt : Bool) (t : cachedAcks) (evs : List TrackerEvent) :
    runT mt t (evs ++ [TrackerEvent.flushAndCleanReq]) = clean (flush (runT mt t evs)) := by
  unfold runT
  rw [List.foldl_append]
  rfl

lemma isDuplicate_clean (t : cachedAcks) (id : MessageID)
    (hgt : messageIDCompare EarliestMessageID id < 0) :
    isDuplicate (clean t) id = false := by
  unfold isDuplicate
  rw [clean_lastCum, if_neg (by omega), clean_pendingAcks]

/-- C7 counterexample: the claim promises that every id reporting duplicate
before flushAndClean reports not-duplicate after it, but the earliest
MessageID reports duplicate both before and after, because the watermark is
reset to the earliest id and the comparison is non-strict. -/
theorem C7_counterexample :
    isDuplicate
      (runT true (initCachedAcks 5)
        [TrackerEvent.addCumulative { ledgerID := 2, entryID := 7, batchIdx := -1, batchSize := 0 }])
      EarliestMessageID = true ∧
    isDuplicate
      (runT true (initCachedAcks 5)
        [TrackerEvent.addCumulative { ledgerID := 2, entryID := 7, batchIdx := -1, batchSize := 0 },
         TrackerEvent.flushAndCleanReq])
      EarliestMessageID = true := by
  decide

/-- C7 amended: for every id strictly greater than the earliest MessageID,
isDuplicate answers false after flushAndClean (unless the id is re-submitted),
and flushAndClean leaves the buffer cursor at zero, the pending-ack index
empty, the watermark at the earliest MessageID and the cumulative-flush flag
cleared.  Ids at or below the earliest MessageID keep reporting duplicate, the
one deviation from the claim as written. -/
theorem C7_flushAndClean_reset (mt : Bool) (N : Nat) (hN : 1 < N)
    (evs : List TrackerEvent) (id : MessageID)
    (hgt : messageIDCompare EarliestMessageID id < 0) :
    isDuplicate (runT mt (initCachedAcks N) (evs ++ [TrackerEvent.flushAndCleanReq])) id = false ∧
    (runT mt (initCachedAcks N) (evs ++ [TrackerEvent.flushAndCleanReq])).index = 0 ∧
    (∀ k, (runT mt (initCachedAcks N) (evs ++ [TrackerEvent.flushAndCleanReq])).pendingAcks k = none) ∧
    (runT mt (initCachedAcks N) (evs ++ [TrackerEvent.flushAndCleanReq])).lastCumulativeAck =
      EarliestMessageID ∧
    (runT mt (initCachedAcks N) (evs ++ [TrackerEvent.flushAndCleanReq])).cumulativeAckRequired =
      false := by
  rw [runT_append_clean]
  exact ⟨isDuplicate_clean _ _ hgt, rfl, fun k => rfl, rfl, rfl⟩

theorem C7_flushAndClean_reset_witness :
    ((1 : Nat) < 5 ∧
      messageIDCompare EarliestMessageID
        { ledgerID := 2, entryID := 3, batchIdx := -1, batchSize := 0 } < 0) ∧
    (isDuplicate
        (runT true (initCachedAcks 5)
          ([TrackerEvent.addCumulative { ledgerID := 2, entryID := 7, batchIdx := -1, batchSize := 0 }] ++
            [TrackerEvent.flushAndCleanReq]))
        { ledgerID := 2, entryID := 3, batchIdx := -1, batchSize := 0 } = false ∧
      (runT true (initCachedAcks 5)
          ([TrackerEvent.addCumulative { ledgerID := 2, entryID := 7, batchIdx := -1, batchSize := 0 }] ++
            [TrackerEvent.flushAndCleanReq])).index = 0 ∧
      (∀ k, (runT true (initCachedAcks 5)
          ([TrackerEvent.addCumulative { ledgerID := 2, entryID := 7, batchIdx := -1, batchSize := 0 }] ++
            [TrackerEvent.flushAndCleanReq])).pendingAcks k = none) ∧
      (runT true (initCachedAcks 5)
          ([TrackerEvent.addCumulative { ledgerID := 2, entryID := 7, batchIdx := -1, batchSize := 0 }] ++
            [TrackerEvent.flushAndCleanReq])).lastCumulativeAck = EarliestMessageID ∧
      (runT true (initCachedAcks 5)
          ([TrackerEvent.addCumulative { ledgerID := 2, entryID := 7, batchIdx := -1, batchSize := 0 }] ++
            [TrackerEvent.flushAndCleanReq])).cumulativeAckRequired = false) :=
  ⟨⟨by norm_num, by decide⟩,
   C7_flushAndClean_reset true 5 (by norm_num)
     [TrackerEvent.addCumulative { ledgerID := 2, entryID := 7, batchIdx := -1, batchSize := 0 }]
     { ledgerID := 2, entryID := 3, batchIdx := -1, batchSize := 0 } (by decide)⟩

/-- C10: immediately after construction of the grouped tracker, and
immediately after any flushAndClean, isDuplicate of the earliest MessageID is
true although nothing was ever acknowledged: the watermark is initialized and
reset to the earliest MessageID and the duplicate check compares
non-strictly. -/
theorem C10_earliest_duplicate (mt : Bool) (N : Nat) (hN : 1 < N) (evs : List TrackerEvent) :
    isDuplicate (initCachedAcks N) EarliestMessageID = true ∧
    isDuplicate (runT mt (initCachedAcks N) (evs ++ [TrackerEvent.flushAndCleanReq]))
      EarliestMessageID = true := by
  constructor
  · refine isDuplicate_of_lastCum_ge _ _ ?_
    show 0 ≤ messageIDCompare EarliestMessageID EarliestMessageID
    rw [messageIDCompare_self]
  · rw [runT_append_clean]
    refine isDuplicate_of_lastCum_ge _ _ ?_
    rw [clean_lastCum, messageIDCompare_self]

theorem C10_earliest_duplicate_witness :
    (1 : Nat) < 5 ∧
    (isDuplicate (initCachedAcks 5) EarliestMessageID = true ∧
      isDuplicate (runT true (initCachedAcks 5) ([] ++ [TrackerEvent.flushAndCleanReq]))
        EarliestMessageID = true) :=
  ⟨by norm_num, C10_earliest_duplicate true 5 (by norm_num) []⟩

lemma stepFlush_self (p : PendingAcks) (id : MessageID) :
    stepFlush p id (messageIDHash id) = none := by
  simp only [stepFlush]
  cases h : p (messageIDHash id) with
  | none => simp only [h]
  | some s => simp only [h]; simp

lemma stepFlush_none (p : PendingAcks) (id : MessageID) (k : Int × Int)
    (h : p k = none) : stepFlush p id k = none := by
  simp only [stepFlush]
  cases hp : p (messageIDHash id) with
  | none => simp only [hp]; exact h
  | some s =>
    simp only [hp]
    by_cases hk : k = messageIDHash id
    · simp [hk]
    · cases s with
      | none => simp [hk, h]
      | some l =>
        by_cases hb : bitNone (bitClear l id.batchIdx) = true
        · simp [hk, hb, h]
        · simp [hk, hb, h]

lemma foldl_stepFlush_none (ids : List MessageID) :
    ∀ (p : PendingAcks) (k : Int × Int), p k = none →
      (ids.foldl stepFlush p) k = none := by
  induction ids with
  | nil => intro p k h; exact h
  | cons id rest ih => intro p k h; exact ih _ _ (stepFlush_none p id k h)

lemma foldl_stepFlush_mem (ids : List MessageID) :
    ∀ (p : PendingAcks) (id : MessageID), id ∈ ids →
      (ids.foldl stepFlush p) (messageIDHash id) = none := by
  induction ids with
  | nil => intro p id h; exact absurd h (List.not_mem_nil _)
  | cons hd rest ih =>
    intro p id h
    rcases List.mem_cons.1 h with rfl | htail
    · exact foldl_stepFlush_none rest _ _ (stepFlush_self p id)
    · exact ih _ _ htail

/-- C6: a flush of individual acks removes the pending-ack index entry of
every id that sits in the flushed buffer, with no regard to uncleared bits in
the entry, and consequently there is a sequence (a partially acknowledged
batch of size 3 whose two acks fill a buffer of capacity 2) after which
isDuplicate answers false for a batch index that was already acknowledged and
handed to the individual-ack callback. -/
theorem C6_flush_deletes_unconditionally :
    (∀ (t : cachedAcks) (id : MessageID) (k : Nat), k < t.index → t.singleAcks k = id →
      (flushIndividualAcks t).pendingAcks (messageIDHash id) = none) ∧
    (isDuplicate
        (runT true (initCachedAcks 2)
          [TrackerEvent.add { ledgerID := 1, entryID := 5, batchIdx := 0, batchSize := 3 },
           TrackerEvent.add { ledgerID := 1, entryID := 5, batchIdx := 2, batchSize := 3 }])
        { ledgerID := 1, entryID := 5, batchIdx := 0, batchSize := 3 } = false ∧
      { ledgerID := 1, entryID := 5, batchIdx := 0, batchSize := 3 } ∈
        (runT true (initCachedAcks 2)
          [TrackerEvent.add { ledgerID := 1, entryID := 5, batchIdx := 0, batchSize := 3 },
           TrackerEvent.add { ledgerID := 1, entryID := 5, batchIdx := 2, batchSize := 3 }]).ackedIndividual) := by
  constructor
  · intro t id k hk hid
    unfold flushIndividualAcks
    rw [if_pos (Nat.lt_of_le_of_lt (Nat.zero_le k) hk)]
    exact foldl_stepFlush_mem _ _ _ (List.mem_map.2 ⟨k, List.mem_range.2 hk, hid⟩)
  · constructor
    · decide
    · decide

theorem C6_flush_deletes_unconditionally_witness :
    (0 < (runT true (initCachedAcks 3)
        [TrackerEvent.add { ledgerID := 4, entryID := 9, batchIdx := 1, batchSize := 3 }]).index ∧
      (runT true (initCachedAcks 3)
        [TrackerEvent.add { ledgerID := 4, entryID := 9, batchIdx := 1, batchSize := 3 }]).singleAcks 0 =
        { ledgerID := 4, entryID := 9, batchIdx := 1, batchSize := 3 }) ∧
    (flushIndividualAcks
        (runT true (initCachedAcks 3)
          [TrackerEvent.add { ledgerID := 4, entryID := 9, batchIdx := 1, batchSize := 3 }])).pendingAcks
      (messageIDHash { ledgerID := 4, entryID := 9, batchIdx := 1, batchSize := 3 }) = none :=
  ⟨⟨by decide, by decide⟩,
   C6_flush_deletes_unconditionally.1
     (runT true (initCachedAcks 3)
       [TrackerEvent.add { ledgerID := 4, entryID := 9, batchIdx := 1, batchSize := 3 }])
     { ledgerID := 4, entryID := 9, batchIdx := 1, batchSize := 3 } 0 (by decide) (by decide)⟩

lemma runT_adds_lt (mt : Bool) (ids : List MessageID) :
    ∀ (t : cachedAcks), t.index + ids.length < t.maxSize →
      (runT mt t (ids.map TrackerEvent.add)).maxSize = t.maxSize ∧
      (runT mt t (ids.map TrackerEvent.add)).index = t.index + ids.length ∧
      (runT mt t (ids.map TrackerEvent.add)).ackedIndividual = t.ackedIndividual ∧
      (runT mt t (ids.map TrackerEvent.add)).pendingAcks = ids.foldl addPending t.pendingAcks ∧
      (runT mt t (ids.map TrackerEvent.add)).lastCumulativeAck = t.lastCumulativeAck ∧
      (∀ (k : Nat) (hk : k < ids.length),
        (runT mt t (ids.map TrackerEvent.add)).singleAcks (t.index + k) = ids.get ⟨k, hk⟩) ∧
      (∀ n, n < t.index →
        (runT mt t (ids.map TrackerEvent.add)).singleAcks n = t.singleAcks n) := by
  induction ids with
  | nil =>
    intro t h
    refine ⟨rfl, Nat.add_zero t.index ▸ rfl, rfl, rfl, rfl, ?_, ?_⟩
    · intro k hk
      exact absurd hk (Nat.not_lt_zero k)
    · intro n hn
      rfl
  | cons id rest ih =>
    intro t h
    have hfull : (addAndCheckIfFull t id).1 = false := by
      simp only [addAndCheckIfFull, decide_eq_false_iff_not]
      simp only [List.length_cons] at h
      omega
    have hstep : trackerStep mt t (.add id) = (addAndCheckIfFull t id).2 := by
      show (if (addAndCheckIfFull t id).1 then flushIndividualAcks (addAndCheckIfFull t id).2
        else (addAndCheckIfFull t id).2) = _
      rw [hfull]
      simp
    have hrun : runT mt t ((id :: rest).map TrackerEvent.add) =
        runT mt (addAndCheckIfFull t id).2 (rest.map TrackerEvent.add) := by
      show runT mt (trackerStep mt t (.add id)) (rest.map TrackerEvent.add) = _
      rw [hstep]
    have h2 : (addAndCheckIfFull t id).2.index + rest.length < (addAndCheckIfFull t id).2.maxSize := by
      show t.index + 1 + rest.length < t.maxSize
      simp only [List.length_cons] at h
      omega
    obtain ⟨hms, hidx, hack, hpend, hlast, hget, hlo⟩ := ih (addAndCheckIfFull t id).2 h2
    rw [hrun]
    refine ⟨hms, ?_, hack, hpend, hlast, ?_, ?_⟩
    · rw [hidx]
      show t.index + 1 + rest.length = t.index + (rest.length + 1)
      omega
    · intro k hk
      match k with
      | 0 =>
        have hlt : t.index < (addAndCheckIfFull t id).2.index := Nat.lt_succ_self t.index
        rw [Nat.add_zero, hlo t.index hlt]
        show (if t.index = t.index then id else t.singleAcks t.index) = id
        rw [if_pos rfl]
      | k + 1 =>
        have hk' : k < rest.length := by
          simp only [List.length_cons] at hk
          omega
        have := hget k hk'
        rw [show t.index + (k + 1) = t.index + 1 + k by omega]
        exact this
    · intro n hn
      have hn' : n < (addAndCheckIfFull t id).2.index := by
        show n < t.index + 1
        omega
      rw [hlo n hn']
      show (if n = t.index then id else t.singleAcks n) = t.singleAcks n
      rw [if_neg (by omega)]

/-- C4: with MaxSize = N greater than 1, exactly N adds of N distinct
non-batched ids starting from the fresh tracker: every one of the N ids has
been handed to the individual-ack callback exactly once, the buffer cursor is
back at zero, and the pending-ack index holds no entry for any of the ids. -/
theorem C4_full_buffer_flush (mt : Bool) (N : Nat) (hN : 1 < N) (ids : List MessageID)
    (hlen : ids.length = N) (hnd : ids.Nodup)
    (hnb : ∀ id ∈ ids, messageIDIsBatch id = false) :
    (∀ id ∈ ids,
      (runT mt (initCachedAcks N) (ids.map TrackerEvent.add)).ackedIndividual.count id = 1) ∧
    (runT mt (initCachedAcks N) (ids.map TrackerEvent.add)).index = 0 ∧
    (∀ id ∈ ids,
      (runT mt (initCachedAcks N) (ids.map TrackerEvent.add)).pendingAcks
        (messageIDHash id) = none) := by
  rcases List.eq_nil_or_concat ids with rfl | ⟨front, y, hconcat⟩
  · simp at hlen
    omega
  · rw [List.concat_eq_append] at hconcat
    subst hconcat
    have hfl : front.length + 1 = N := by simpa using hlen
    have hlt : (initCachedAcks N).index + front.length < (initCachedAcks N).maxSize := by
      show 0 + front.length < N
      omega
    obtain ⟨hms, hidx, hack, hpend, hlast, hget, hlo⟩ :=
      runT_adds_lt mt front (initCachedAcks N) hlt
    have hidx1 : (runT mt (initCachedAcks N) (front.map TrackerEvent.add)).index = front.length := by
      rw [hidx]
      exact Nat.zero_add front.length
    have hsplit : runT mt (initCachedAcks N) ((front ++ [y]).map TrackerEvent.add) =
        trackerStep mt (runT mt (initCachedAcks N) (front.map TrackerEvent.add))
          (TrackerEvent.add y) := by
      unfold runT
      rw [List.map_append, List.foldl_append]
      rfl
    have hfull :
        (addAndCheckIfFull (runT mt (initCachedAcks N) (front.map TrackerEvent.add)) y).1 = true := by
      simp only [addAndCheckIfFull, decide_eq_true_eq, hidx1, hms]
      show front.length + 1 = N
      exact hfl
    have hstep : trackerStep mt (runT mt (initCachedAcks N) (front.map TrackerEvent.add))
        (TrackerEvent.add y) =
        flushIndividualAcks
          (addAndCheckIfFull (runT mt (initCachedAcks N) (front.map TrackerEvent.add)) y).2 := by
      show (if (addAndCheckIfFull _ y).1 then _ else _) = _
      rw [hfull]
      simp
    have hidx2 :
        (addAndCheckIfFull (runT mt (initCachedAcks N) (front.map TrackerEvent.add)) y).2.index
          = N := by
      show (runT mt (initCachedAcks N) (front.map TrackerEvent.add)).index + 1 = N
      rw [hidx1]
      exact hfl
    have hbuf :
        (List.range
            (addAndCheckIfFull (runT mt (initCachedAcks N) (front.map TrackerEvent.add)) y).2.index).map
          (addAndCheckIfFull (runT mt (initCachedAcks N) (front.map TrackerEvent.add)) y).2.singleAcks
          = front ++ [y] := by
      rw [hidx2]
      apply List.ext_getElem
      · simp
        omega
      · intro n h1 h2
        have hnN : n < N := by simpa using h1
        rw [List.getElem_map, List.getElem_range]
        show (if n = (runT mt (initCachedAcks N) (front.map TrackerEvent.add)).index then y
          else (runT mt (initCachedAcks N) (front.map TrackerEvent.add)).singleAcks n) = _
        by_cases hn : n = front.length
        · subst hn
          rw [if_pos hidx1.symm]
          rw [List.getElem_append_right (Nat.le_refl front.length)]
          simp
        · have hnf : n < front.length := by omega
          rw [if_neg (by rw [hidx1]; exact hn)]
          rw [List.getElem_append_left hnf]
          have := hget n hnf
          rw [show (initCachedAcks N).index + n = n from Nat.zero_add n] at this
          rw [this]
          exact (List.get_eq_getElem front ⟨n, hnf⟩)
    have hpos :
        0 < (addAndCheckIfFull (runT mt (initCachedAcks N) (front.map TrackerEvent.add)) y).2.index := by
      rw [hidx2]
      omega
    have hres : flushIndividualAcks
        (addAndCheckIfFull (runT mt (initCachedAcks N) (front.map TrackerEvent.add)) y).2 =
        { (addAndCheckIfFull (runT mt (initCachedAcks N) (front.map TrackerEvent.add)) y).2 with
            ackedIndividual :=
              (addAndCheckIfFull (runT mt (initCachedAcks N) (front.map TrackerEvent.add)) y).2.ackedIndividual
                ++ (front ++ [y]),
            pendingAcks :=
              (front ++ [y]).foldl stepFlush
                (addAndCheckIfFull (runT mt (initCachedAcks N) (front.map TrackerEvent.add)) y).2.pendingAcks,
            index := 0 } := by
      unfold flushIndividualAcks
      rw [if_pos hpos, hbuf]
    have hack2 :
        (addAndCheckIfFull (runT mt (initCachedAcks N) (front.map TrackerEvent.add)) y).2.ackedIndividual
          = [] := by
      show (runT mt (initCachedAcks N) (front.map TrackerEvent.add)).ackedIndividual = []
      rw [hack]
      rfl
    rw [hsplit, hstep, hres]
    refine ⟨?_, rfl, ?_⟩
    · intro id hid
      show ((addAndCheckIfFull (runT mt (initCachedAcks N) (front.map TrackerEvent.add)) y).2.ackedIndividual
        ++ (front ++ [y])).count id = 1
      rw [hack2, List.nil_append]
      exact List.count_eq_one_of_mem hnd hid
    · intro id hid
      exact foldl_stepFlush_mem _ _ _ hid

theorem C4_full_buffer_flush_witness :
    ((1 : Nat) < 2 ∧
      ([{ ledgerID := 1, entryID := 1, batchIdx := -1, batchSize := 0 },
        { ledgerID := 1, entryID := 2, batchIdx := -1, batchSize := 0 }] : List MessageID).length = 2 ∧
      ([{ ledgerID := 1, entryID := 1, batchIdx := -1, batchSize := 0 },
        { ledgerID := 1, entryID := 2, batchIdx := -1, batchSize := 0 }] : List MessageID).Nodup ∧
      (∀ id ∈ ([{ ledgerID := 1, entryID := 1, batchIdx := -1, batchSize := 0 },
        { ledgerID := 1, entryID := 2, batchIdx := -1, batchSize := 0 }] : List MessageID),
        messageIDIsBatch id = false)) ∧
    ((∀ id ∈ ([{ ledgerID := 1, entryID := 1, batchIdx := -1, batchSize := 0 },
        { ledgerID := 1, entryID := 2, batchIdx := -1, batchSize := 0 }] : List MessageID),
      (runT true (initCachedAcks 2)
        (([{ ledgerID := 1, entryID := 1, batchIdx := -1, batchSize := 0 },
           { ledgerID := 1, entryID := 2, batchIdx := -1, batchSize := 0 }] : List MessageID).map
          TrackerEvent.add)).ackedIndividual.count id = 1) ∧
    (runT true (initCachedAcks 2)
        (([{ ledgerID := 1, entryID := 1, batchIdx := -1, batchSize := 0 },
           { ledgerID := 1, entryID := 2, batchIdx := -1, batchSize := 0 }] : List MessageID).map
          TrackerEvent.add)).index = 0 ∧
    (∀ id ∈ ([{ ledgerID := 1, entryID := 1, batchIdx := -1, batchSize := 0 },
        { ledgerID := 1, entryID := 2, batchIdx := -1, batchSize := 0 }] : List MessageID),
      (runT true (initCachedAcks 2)
        (([{ ledgerID := 1, entryID := 1, batchIdx := -1, batchSize := 0 },
           { ledgerID := 1, entryID := 2, batchIdx := -1, batchSize := 0 }] : List MessageID).map
          TrackerEvent.add)).pendingAcks (messageIDHash id) = none)) :=
  ⟨⟨by norm_num, by decide, by decide, by decide⟩,
   C4_full_buffer_flush true 2 (by norm_num)
     [{ ledgerID := 1, entryID := 1, batchIdx := -1, batchSize := 0 },
      { ledgerID := 1, entryID := 2, batchIdx := -1, batchSize := 0 }]
     (by decide) (by decide) (by decide)⟩

/-- C5 counterexample: batch of size 3 at position (1,5), adds for batch
indices 0 and 2, then the add for index 1 clears the last bit, yet the
pending-ack entry is still in the index (an all-zero bitset), so the claim
that the entry is fully evicted at that moment is false; addAndCheckIfFull
never deletes entries, only a flush does. -/
theorem C5_counterexample :
    ¬ ((trackerStep true
        (runT true (initCachedAcks 10)
          [TrackerEvent.add { ledgerID := 1, entryID := 5, batchIdx := 0, batchSize := 3 },
           TrackerEvent.add { ledgerID := 1, entryID := 5, batchIdx := 2, batchSize := 3 }])
        (TrackerEvent.add { ledgerID := 1, entryID := 5, batchIdx := 1, batchSize := 3 })).pendingAcks
      (messageIDHash { ledgerID := 1, entryID := 5, batchIdx := 1, batchSize := 3 }) = none) := by
  decide

/-- C5 amended: for a batch of size 3 at any position with a non-negative
ledger id, after adds for batch indices 0 and 2 isDuplicate is false for
index 1 and true for indices 0 and 2; the add for index 1 clears the last
bit, after which the pending-ack entry remains in the index as an all-zero
bitset, and the entry is evicted at the next individual-ack flush rather than
at the moment of the add. -/
theorem C5_batch_bits (mt : Bool) (N : Nat) (hN : 3 < N) (L E : Int) (hL : 0 ≤ L) :
    isDuplicate
      (runT mt (initCachedAcks N)
        (List.map TrackerEvent.add
          [{ ledgerID := L, entryID := E, batchIdx := 0, batchSize := 3 },
           { ledgerID := L, entryID := E, batchIdx := 2, batchSize := 3 }]))
      { ledgerID := L, entryID := E, batchIdx := 1, batchSize := 3 } = false ∧
    isDuplicate
      (runT mt (initCachedAcks N)
        (List.map TrackerEvent.add
          [{ ledgerID := L, entryID := E, batchIdx := 0, batchSize := 3 },
           { ledgerID := L, entryID := E, batchIdx := 2, batchSize := 3 }]))
      { ledgerID := L, entryID := E, batchIdx := 0, batchSize := 3 } = true ∧
    isDuplicate
      (runT mt (initCachedAcks N)
        (List.map TrackerEvent.add
          [{ ledgerID := L, entryID := E, batchIdx := 0, batchSize := 3 },
           { ledgerID := L, entryID := E, batchIdx := 2, batchSize := 3 }]))
      { ledgerID := L, entryID := E, batchIdx := 2, batchSize := 3 } = true ∧
    (trackerStep mt
        (runT mt (initCachedAcks N)
          (List.map TrackerEvent.add
            [{ ledgerID := L, entryID := E, batchIdx := 0, batchSize := 3 },
             { ledgerID := L, entryID := E, batchIdx := 2, batchSize := 3 }]))
        (TrackerEvent.add { ledgerID := L, entryID := E, batchIdx := 1, batchSize := 3 })).pendingAcks
      (L, E) = some (some [false, false, false]) ∧
    (flushIndividualAcks
        (trackerStep mt
          (runT mt (initCachedAcks N)
            (List.map TrackerEvent.add
              [{ ledgerID := L, entryID := E, batchIdx := 0, batchSize := 3 },
               { ledgerID := L, entryID := E, batchIdx := 2, batchSize := 3 }]))
          (TrackerEvent.add { ledgerID := L, entryID := E, batchIdx := 1, batchSize := 3 }))).pendingAcks
      (L, E) = none := by
  set s2 := runT mt (initCachedAcks N)
    (List.map TrackerEvent.add
      [{ ledgerID := L, entryID := E, batchIdx := 0, batchSize := 3 },
       { ledgerID := L, entryID := E, batchIdx := 2, batchSize := 3 }]) with hs2
  have hlt : (initCachedAcks N).index +
      ([{ ledgerID := L, entryID := E, batchIdx := 0, batchSize := 3 },
        { ledgerID := L, entryID := E, batchIdx := 2, batchSize := 3 }] : List MessageID).length <
      (initCachedAcks N).maxSize := by
    show 0 + 2 < N
    omega
  obtain ⟨hms, hidx, hack, hpend, hlast, hget, hlo⟩ :=
    runT_adds_lt mt
      [{ ledgerID := L, entryID := E, batchIdx := 0, batchSize := 3 },
       { ledgerID := L, entryID := E, batchIdx := 2, batchSize := 3 }]
      (initCachedAcks N) hlt
  rw [← hs2] at hms hidx hack hpend hlast
  have hcmp : ∀ bi : Int, ¬ (0 ≤ messageIDCompare EarliestMessageID
      { ledgerID := L, entryID := E, batchIdx := bi, batchSize := 3 }) := by
    intro bi
    rw [messageIDCompare_nonneg_iff]
    simp only [EarliestMessageID]
    simp
    omega
  have hp2 : s2.pendingAcks (L, E) = some (some [false, true, false]) := by
    rw [hpend]
    show addPending (addPending (initCachedAcks N).pendingAcks
      { ledgerID := L, entryID := E, batchIdx := 0, batchSize := 3 })
      { ledgerID := L, entryID := E, batchIdx := 2, batchSize := 3 } (L, E) = _
    simp [addPending, initCachedAcks, messageIDHash, messageIDIsBatch, bitClear,
      List.replicate, Int.toNat]
  have hfull : (addAndCheckIfFull s2
      { ledgerID := L, entryID := E, batchIdx := 1, batchSize := 3 }).1 = false := by
    simp only [addAndCheckIfFull, decide_eq_false_iff_not, hidx, hms]
    show ¬ (0 + 2 + 1 = N)
    omega
  have hstep : trackerStep mt s2
      (TrackerEvent.add { ledgerID := L, entryID := E, batchIdx := 1, batchSize := 3 }) =
      (addAndCheckIfFull s2
        { ledgerID := L, entryID := E, batchIdx := 1, batchSize := 3 }).2 := by
    show (if (addAndCheckIfFull _ _).1 then _ else _) = _
    rw [hfull]
    simp
  have hp3 : (addAndCheckIfFull s2
      { ledgerID := L, entryID := E, batchIdx := 1, batchSize := 3 }).2.pendingAcks (L, E) =
      some (some [false, false, false]) := by
    show addPending s2.pendingAcks
      { ledgerID := L, entryID := E, batchIdx := 1, batchSize := 3 } (L, E) = _
    simp only [addPending, messageIDHash]
    simp only [hp2]
    simp [bitClear, Int.toNat]
  refine ⟨?_, ?_, ?_, ?_, ?_⟩
  · unfold isDuplicate
    rw [hlast, initCachedAcks_lastCum, if_neg (hcmp 1)]
    have hkey : messageIDHash
        { ledgerID := L, entryID := E, batchIdx := 1, batchSize := 3 } = (L, E) := rfl
    rw [hkey, hp2]
    simp [messageIDIsBatch, bitTest]
  · unfold isDuplicate
    rw [hlast, initCachedAcks_lastCum, if_neg (hcmp 0)]
    have hkey : messageIDHash
        { ledgerID := L, entryID := E, batchIdx := 0, batchSize := 3 } = (L, E) := rfl
    rw [hkey, hp2]
    simp [messageIDIsBatch, bitTest]
  · unfold isDuplicate
    rw [hlast, initCachedAcks_lastCum, if_neg (hcmp 2)]
    have hkey : messageIDHash
        { ledgerID := L, entryID := E, batchIdx := 2, batchSize := 3 } = (L, E) := rfl
    rw [hkey, hp2]
    simp [messageIDIsBatch, bitTest]
  · rw [hstep]
    exact hp3
  · rw [hstep]
    have hpos3 : 0 < (addAndCheckIfFull s2
        { ledgerID := L, entryID := E, batchIdx := 1, batchSize := 3 }).2.index := by
      show 0 < s2.index + 1
      omega
    unfold flushIndividualAcks
    rw [if_pos hpos3]
    have hmem : { ledgerID := L, entryID := E, batchIdx := 1, batchSize := 3 } ∈
        (List.range ((addAndCheckIfFull s2
          { ledgerID := L, entryID := E, batchIdx := 1, batchSize := 3 }).2.index)).map
          (addAndCheckIfFull s2
            { ledgerID := L, entryID := E, batchIdx := 1, batchSize := 3 }).2.singleAcks := by
      refine List.mem_map.2 ⟨2, List.mem_range.2 ?_, ?_⟩
      · show 2 < s2.index + 1
        rw [hidx]
        simp
      · show (if 2 = s2.index then
            ({ ledgerID := L, entryID := E, batchIdx := 1, batchSize := 3 } : MessageID)
          else s2.singleAcks 2) =
          { ledgerID := L, entryID := E, batchIdx := 1, batchSize := 3 }
        rw [if_pos (by rw [hidx]; simp [initCachedAcks])]
    exact foldl_stepFlush_mem _ _ _ hmem

theorem C5_batch_bits_witness :
    ((3 : Nat) < 10 ∧ (0 : Int) ≤ 1) ∧
    (isDuplicate
      (runT true (initCachedAcks 10)
        (List.map TrackerEvent.add
          [{ ledgerID := 1, entryID := 5, batchIdx := 0, batchSize := 3 },
           { ledgerID := 1, entryID := 5, batchIdx := 2, batchSize := 3 }]))
      { ledgerID := 1, entryID := 5, batchIdx := 1, batchSize := 3 } = false ∧
    isDuplicate
      (runT true (initCachedAcks 10)
        (List.map TrackerEvent.add
          [{ ledgerID := 1, entryID := 5, batchIdx := 0, batchSize := 3 },
           { ledgerID := 1, entryID := 5, batchIdx := 2, batchSize := 3 }]))
      { ledgerID := 1, entryID := 5, batchIdx := 0, batchSize := 3 } = true ∧
    isDuplicate
      (runT true (initCachedAcks 10)
        (List.map TrackerEvent.add
          [{ ledgerID := 1, entryID := 5, batchIdx := 0, batchSize := 3 },
           { ledgerID := 1, entryID := 5, batchIdx := 2, batchSize := 3 }]))
      { ledgerID := 1, entryID := 5, batchIdx := 2, batchSize := 3 } = true ∧
    (trackerStep true
        (runT true (initCachedAcks 10)
          (List.map TrackerEvent.add
            [{ ledgerID := 1, entryID := 5, batchIdx := 0, batchSize := 3 },
             { ledgerID := 1, entryID := 5, batchIdx := 2, batchSize := 3 }]))
        (TrackerEvent.add { ledgerID := 1, entryID := 5, batchIdx := 1, batchSize := 3 })).pendingAcks
      (1, 5) = some (some [false, false, false]) ∧
    (flushIndividualAcks
        (trackerStep true
          (runT true (initCachedAcks 10)
            (List.map TrackerEvent.add
              [{ ledgerID := 1, entryID := 5, batchIdx := 0, batchSize := 3 },
               { ledgerID := 1, entryID := 5, batchIdx := 2, batchSize := 3 }]))
          (TrackerEvent.add { ledgerID := 1, entryID := 5, batchIdx := 1, batchSize := 3 }))).pendingAcks
      (1, 5) = none) :=
  ⟨⟨by norm_num, by norm_num⟩,
   C5_batch_bits true 10 (by norm_num) 1 5 (by norm_num)⟩

end PulsarClient
